import Mathlib

/-!
Verification of the MUS-to-MIDI decoder (`src/extract.py`).

The Python source is shallowly embedded: byte buffers are `List Nat`
(each element one byte), fallible Python operations (`struct.unpack`,
list indexing, division by zero, use of an unbound variable) are
`Except String`, and Python floats used for MIDI times/durations are
modelled exactly as rationals (all values involved are quarter-integers,
which floats represent exactly).  Python byte strings decoded with
`.decode('utf8')` are kept as raw byte lists; the `'.pcm' in name` test
becomes an infix test on the corresponding ASCII bytes.
-/

namespace MusExtract

/-- Constants from the top of `extract.py`. -/
def TITLE_HEADER : Nat := 20

def HEADER_BYTES : Nat := 0x568

def SEQ_INFO_BYTES : Nat := 0x20C

def SAMPLE_STRUCT_SIZE : Nat := 0x2C

/-- `NOTE_SCALE` from the source: the twelve semitone names from C upward
(written here as two halves joined by append; the source writes one
12-element list literal). -/
def NOTE_SCALE : List String :=
  ["C", "C#", "D", "D#", "E", "F"] ++ ["F#", "G", "G#", "A", "A#", "B"]

/-- `calculate_volume` from the source: `0` maps to `0`, otherwise `(byte-1)*2`. -/
def calculate_volume (byte : Nat) : Nat :=
  if byte = 0 then 0 else (byte - 1) * 2

/-- `calculate_note` from the source: `255` is the `'None'` sentinel, otherwise
the semitone name plus octave number derived from `notes // 8`. -/
def calculate_note (notes : Nat) : String :=
  if notes = 255 then "None"
  else
    let notes_from_c := notes / 8
    let scale_num := notes_from_c / NOTE_SCALE.length
    let note := NOTE_SCALE.getD (notes_from_c % NOTE_SCALE.length) ""
    note ++ toString scale_num

/-- `VirtualFile` from the source: a byte buffer plus a read position. -/
structure VirtualFile where
  data : List Nat
  pos : Nat
deriving DecidableEq

/-- `self.size = len(data)` in `VirtualFile.__init__`. -/
def VirtualFile.size (vf : VirtualFile) : Nat := vf.data.length

/-- `VirtualFile.read`: advances `pos` by `num` unconditionally and returns the
slice `data[pos:pos+num]` (Python slicing silently clamps to the buffer end). -/
def VirtualFile.read (vf : VirtualFile) (num : Nat) : List Nat × VirtualFile :=
  ((vf.data.drop vf.pos).take num, { vf with pos := vf.pos + num })

/-- `VirtualFile.peak`: the slice `data[pos:pos+num]`, position unchanged. -/
def VirtualFile.peak (vf : VirtualFile) (num : Nat) : List Nat :=
  (vf.data.drop vf.pos).take num

/-- Little-endian value of a byte list (each element one byte). -/
def leVal (bs : List Nat) : Nat :=
  bs.foldr (fun b acc => b + 256 * acc) 0

/-- `struct.unpack("<I", vf.read(4))`: errors unless exactly 4 bytes remain. -/
def read4LE (vf : VirtualFile) : Except String (Nat × VirtualFile) :=
  let r := vf.read 4
  if r.1.length = 4 then .ok (leVal r.1, r.2)
  else .error "struct.error: unpack requires a buffer of 4 bytes"

/-- The `while True` loop of `get_seq_data`: reads LE uint32 values; the first
zero is appended like any value, the second zero terminates the list.  The
fuel argument only bounds recursion depth; the Python loop always stops via
the second zero or via a short-read unpack error inside the 0x20C region. -/
def readSeqList (vf : VirtualFile) (found_zero : Bool) :
    Nat → Except String (List Nat × VirtualFile)
  | 0 => .error "fuel exhausted"
  | fuel + 1 =>
    match read4LE vf with
    | .error e => .error e
    | .ok (v, vf') =>
      if v = 0 then
        if found_zero then .ok ([], vf')
        else
          match readSeqList vf' true fuel with
          | .error e => .error e
          | .ok (rest, vf'') => .ok (0 :: rest, vf'')
      else
        match readSeqList vf' found_zero fuel with
        | .error e => .error e
        | .ok (rest, vf'') => .ok (v :: rest, vf'')

/-- `get_seq_data` from the source: consumes the fixed `SEQ_INFO_BYTES` region,
decodes the sentinel-terminated list, and splits it as
`(num_channels, play_order, num_sequences)`.  Accessing `sequences[0]` or
`sequences[1]` on a too-short list is Python's `IndexError`. -/
def get_seq_data (vf : VirtualFile) :
    Except String (Nat × List Nat × Nat × VirtualFile) :=
  let r := vf.read SEQ_INFO_BYTES
  match readSeqList ⟨r.1, 0⟩ false (SEQ_INFO_BYTES / 4 + 1) with
  | .error e => .error e
  | .ok (seqs, _) =>
    match seqs with
    | c :: n :: rest => .ok (c, rest, n, r.2)
    | _ => .error "IndexError: list index out of range"

end MusExtract

namespace MusExtract

/-- `Sample` from the source; `sname` is the zero-stripped name as bytes. -/
structure Sample where
  sname : List Nat
  ssize : Nat
  volume : Nat
  sloops : Nat
  sloope : Nat
  snume : Nat
  type : Nat
deriving DecidableEq

/-- `Sample.__init__`: stores the volume curve-converted and derives the
playback type (`1` = loop when a loop start is present, else `2` = one shot). -/
def Sample.make (sname : List Nat) (ssize volume sloops sloope snume : Nat) :
    Sample :=
  { sname := sname, ssize := ssize, volume := calculate_volume volume,
    sloops := sloops, sloope := sloope, snume := snume,
    type := if sloops ≠ 0 then 1 else 2 }

/-- The ASCII bytes of the sample-file marker `".pcm"`. -/
def pcmMarker : List Nat := [46, 112, 99, 109]

/-- `listMatches needle hay`: `hay` starts with `needle`. -/
def listMatches (needle hay : List Nat) : Bool :=
  match needle, hay with
  | [], _ => true
  | _ :: _, [] => false
  | x :: xs, y :: ys => x == y && listMatches xs ys

/-- Python's `needle in hay` on byte strings: contiguous substring test. -/
def containsBytes (needle : List Nat) : List Nat → Bool
  | [] => listMatches needle []
  | b :: bs => listMatches needle (b :: bs) || containsBytes needle bs

/-- One iteration body of the 31-slot loop in `get_sample_data`: unpack one
`0x2C`-byte record (`struct.unpack` errors on a short buffer), skip it when
the 22-byte name field lacks the `".pcm"` marker, otherwise build the
`Sample` with 1-based slot index `i+1`.  The name is stored with all zero
bytes removed (`remove_trailing_zeros_from_str`). -/
def parseSampleRecord (rec : List Nat) (i : Nat) : Except String (Option Sample) :=
  if rec.length = SAMPLE_STRUCT_SIZE then
    let sample_name := rec.take 22
    if containsBytes pcmMarker sample_name then
      let cleaned := sample_name.filter (fun b => b ≠ 0)
      let sample_size := leVal ((rec.drop 24).take 4)
      let sample_iden := leVal ((rec.drop 28).take 4)
      let sample_loop_start := leVal ((rec.drop 32).take 4)
      let sample_loop_end := leVal ((rec.drop 36).take 4)
      .ok (some (Sample.make cleaned sample_size sample_iden sample_loop_start
        sample_loop_end (i + 1)))
    else .ok none
  else .error "struct.error: unpack requires a buffer of 44 bytes"

/-- The `for i in range(31)` loop of `get_sample_data`: one full record is
consumed per slot unconditionally; only its interpretation is conditional. -/
def sampleLoop (inner : VirtualFile) (i : Nat) :
    Nat → Except String (List (Option Sample) × VirtualFile)
  | 0 => .ok ([], inner)
  | k + 1 =>
    let r := inner.read SAMPLE_STRUCT_SIZE
    match parseSampleRecord r.1 i with
    | .error e => .error e
    | .ok slot =>
      match sampleLoop r.2 (i + 1) k with
      | .error e => .error e
      | .ok (rest, innerF) => .ok (slot :: rest, innerF)

/-- `get_sample_data` from the source: consumes `HEADER_BYTES` from the outer
cursor, skips the `0x14`-byte title inside the region, then reads 31 records. -/
def get_sample_data (vfile : VirtualFile) :
    Except String (List (Option Sample) × VirtualFile) :=
  let r := vfile.read HEADER_BYTES
  let inner := ((⟨r.1, 0⟩ : VirtualFile).read 0x14).2
  match sampleLoop inner 0 31 with
  | .error e => .error e
  | .ok (samples, _) => .ok (samples, r.2)

end MusExtract

namespace MusExtract

/-- `NoteInfo` from the source (decoded 6-byte note record). -/
structure NoteInfo where
  start_volume : Nat
  sample_used : Option Sample
  volume : Nat
  /-- `none` models the `EMPTY_NOTE` (`'--'`) marker stored when `bytes[0] == 0`. -/
  sample_num : Option Nat
  second_byte : List Nat
  note_played : String
  retrigger : Bool
  note_played_raw : Nat
  note_played_midi : Nat
  third_byte : List Nat
deriving DecidableEq

/-- Python list indexing: `IndexError` beyond the end. -/
def idx (l : List Nat) (i : Nat) : Except String Nat :=
  match l.get? i with
  | some v => .ok v
  | none => .error "IndexError: list index out of range"

/-- `NoteInfo.__init__` from the source.  `bytes[0]`..`bytes[4]` are always
accessed; `bytes[5]` only when the effect code is 12 (volume set) or 15
(the debug-print branch).  When `bytes[0] != 0` the slot
`samples[sample_num-1]` is accessed, which is an `IndexError` when the
combined sample number exceeds the table length. -/
def mkNoteInfo (bs : List Nat) (samples : List (Option Sample)) :
    Except String NoteInfo :=
  match idx bs 0, idx bs 1, idx bs 2, idx bs 3, idx bs 4 with
  | .ok b0, .ok b1, .ok b2, .ok b3, .ok b4 =>
    let sample_num : Option Nat := if b0 ≠ 0 then some (b0 + b1 * 16) else none
    let lookup : Except String (Option Sample × Nat) :=
      match sample_num with
      | none => .ok (none, 0)
      | some n =>
        match samples.get? (n - 1) with
        | none => .error "IndexError: list index out of range"
        | some none => .ok (none, 0)
        | some (some s) => .ok (some s, s.volume)
    match lookup with
    | .error e => .error e
    | .ok (sample_used, start_volume) =>
      let retrigger := b3 = 1
      let volumeE : Except String Nat :=
        if b4 = 12 then (idx bs 5).map calculate_volume
        else .ok (if sample_num.isSome || retrigger then start_volume else 0)
      match volumeE with
      | .error e => .error e
      | .ok volume =>
        let printCheck : Except String Nat :=
          if b4 = 15 then idx bs 5 else .ok 0
        match printCheck with
        | .error e => .error e
        | .ok _ =>
          .ok { start_volume := start_volume, sample_used := sample_used,
                volume := volume, sample_num := sample_num,
                second_byte := (bs.drop 2).take 2,
                note_played := calculate_note b2,
                retrigger := retrigger,
                note_played_raw := b2 / 8 + 12,
                note_played_midi := b2 / 8 + 12 + 12,
                third_byte := bs.drop 4 }
  | _, _, _, _, _ => .error "IndexError: list index out of range"

end MusExtract

namespace MusExtract

/-- Extract the payload of a known-successful `Except`, with a fallback. -/
def exOk {α : Type} (e : Except String α) (d : α) : α :=
  match e with
  | .ok v => v
  | .error _ => d

/-- A default `NoteInfo` used only as the `exOk` fallback in witnesses. -/
def blankNote : NoteInfo :=
  { start_volume := 0, sample_used := none, volume := 0, sample_num := none,
    second_byte := [0, 0], note_played := "C0", retrigger := false,
    note_played_raw := 12, note_played_midi := 24, third_byte := [0, 0] }

end MusExtract

namespace MusExtract

/-- Evaluation of `mkNoteInfo` when `bytes[0] = 0`: the sample reference is the
empty marker, no table lookup happens, and the volume comes only from the
effect pair. -/
lemma mkNoteInfo_empty (b1 b2 b3 b4 b5 : Nat) (samples : List (Option Sample)) :
    mkNoteInfo [0, b1, b2, b3, b4, b5] samples = .ok
      { start_volume := 0, sample_used := none,
        volume := if b4 = 12 then calculate_volume b5 else 0,
        sample_num := none, second_byte := [b2, b3],
        note_played := calculate_note b2, retrigger := decide (b3 = 1),
        note_played_raw := b2 / 8 + 12, note_played_midi := b2 / 8 + 12 + 12,
        third_byte := [b4, b5] } := by
  unfold mkNoteInfo
  simp only [idx, List.get?, ne_eq, not_true_eq_false, if_false, ite_false,
    reduceCtorEq]
  by_cases hb4 : b4 = 12 <;> by_cases hb4' : b4 = 15 <;>
    simp [hb4, hb4', Except.map]

/-- Evaluation of `mkNoteInfo` when `bytes[0] ≠ 0` and the referenced slot is
inside the table but absent (`None`): the lookup succeeds, `sample_used`
stays empty, and the inherited start volume is 0. -/
lemma mkNoteInfo_absent (b0 b1 b2 b3 b4 b5 : Nat)
    (samples : List (Option Sample)) (hb0 : b0 ≠ 0)
    (hs : samples.get? (b0 + b1 * 16 - 1) = some none) :
    mkNoteInfo [b0, b1, b2, b3, b4, b5] samples = .ok
      { start_volume := 0, sample_used := none,
        volume := if b4 = 12 then calculate_volume b5 else 0,
        sample_num := some (b0 + b1 * 16), second_byte := [b2, b3],
        note_played := calculate_note b2, retrigger := decide (b3 = 1),
        note_played_raw := b2 / 8 + 12, note_played_midi := b2 / 8 + 12 + 12,
        third_byte := [b4, b5] } := by
  unfold mkNoteInfo
  simp only [idx, List.get?, ne_eq, hb0, not_false_eq_true, if_true, hs]
  by_cases hb4 : b4 = 12 <;> by_cases hb4' : b4 = 15 <;>
    simp [hb4, hb4', Except.map]

/-- Evaluation of `mkNoteInfo` when `bytes[0] ≠ 0` and the referenced slot
holds a sample: `sample_used` and the start volume come from that sample. -/
lemma mkNoteInfo_present (b0 b1 b2 b3 b4 b5 : Nat)
    (samples : List (Option Sample)) (s : Sample) (hb0 : b0 ≠ 0)
    (hs : samples.get? (b0 + b1 * 16 - 1) = some (some s)) :
    mkNoteInfo [b0, b1, b2, b3, b4, b5] samples = .ok
      { start_volume := s.volume, sample_used := some s,
        volume := if b4 = 12 then calculate_volume b5 else s.volume,
        sample_num := some (b0 + b1 * 16), second_byte := [b2, b3],
        note_played := calculate_note b2, retrigger := decide (b3 = 1),
        note_played_raw := b2 / 8 + 12, note_played_midi := b2 / 8 + 12 + 12,
        third_byte := [b4, b5] } := by
  unfold mkNoteInfo
  simp only [idx, List.get?, ne_eq, hb0, not_false_eq_true, if_true, hs]
  by_cases hb4 : b4 = 12 <;> by_cases hb4' : b4 = 15 <;>
    simp [hb4, hb4', Except.map]

/-- Evaluation of `mkNoteInfo` when `bytes[0] ≠ 0` and the combined reference
points past the end of the sample table: Python's `IndexError`. -/
lemma mkNoteInfo_oob (b0 b1 b2 b3 b4 b5 : Nat)
    (samples : List (Option Sample)) (hb0 : b0 ≠ 0)
    (hs : samples.get? (b0 + b1 * 16 - 1) = none) :
    mkNoteInfo [b0, b1, b2, b3, b4, b5] samples =
      .error "IndexError: list index out of range" := by
  unfold mkNoteInfo
  simp only [idx, List.get?, ne_eq, hb0, not_false_eq_true, if_true, hs]

/-- Any successful decode of a 6-byte record falls into one of the three
success shapes above. -/
lemma mkNoteInfo_ok_cases (b0 b1 b2 b3 b4 b5 : Nat)
    (samples : List (Option Sample)) (ni : NoteInfo)
    (h : mkNoteInfo [b0, b1, b2, b3, b4, b5] samples = .ok ni) :
    (b0 = 0 ∧ ni = exOk (mkNoteInfo [0, b1, b2, b3, b4, b5] samples) blankNote)
    ∨ (b0 ≠ 0 ∧ samples.get? (b0 + b1 * 16 - 1) = some none
        ∧ ni.sample_used = none ∧ ni.start_volume = 0
        ∧ ni.sample_num = some (b0 + b1 * 16))
    ∨ (b0 ≠ 0 ∧ ∃ s, samples.get? (b0 + b1 * 16 - 1) = some (some s)
        ∧ ni.sample_used = some s ∧ ni.start_volume = s.volume
        ∧ ni.sample_num = some (b0 + b1 * 16)) := by
  by_cases hb0 : b0 = 0
  · subst hb0
    left
    refine ⟨rfl, ?_⟩
    rw [h]
    rfl
  · right
    cases hs : samples.get? (b0 + b1 * 16 - 1) with
    | none =>
      rw [mkNoteInfo_oob b0 b1 b2 b3 b4 b5 samples hb0 hs] at h
      cases h
    | some slot =>
      cases slot with
      | none =>
        left
        rw [mkNoteInfo_absent b0 b1 b2 b3 b4 b5 samples hb0 hs] at h
        cases h
        exact ⟨hb0, rfl, rfl, rfl, rfl⟩
      | some s =>
        right
        rw [mkNoteInfo_present b0 b1 b2 b3 b4 b5 samples s hb0 hs] at h
        cases h
        exact ⟨hb0, s, rfl, rfl, rfl, rfl⟩

/-- Structural fields (`sample_num`, pitch fields, retrigger, byte pairs) of
any successfully decoded 6-byte record. -/
lemma mkNoteInfo_ok_fields (b0 b1 b2 b3 b4 b5 : Nat)
    (samples : List (Option Sample)) (ni : NoteInfo)
    (h : mkNoteInfo [b0, b1, b2, b3, b4, b5] samples = .ok ni) :
    ni.sample_num = (if b0 = 0 then none else some (b0 + b1 * 16))
    ∧ ni.retrigger = decide (b3 = 1)
    ∧ ni.note_played = calculate_note b2
    ∧ ni.note_played_raw = b2 / 8 + 12
    ∧ ni.note_played_midi = b2 / 8 + 12 + 12
    ∧ ni.second_byte = [b2, b3]
    ∧ ni.third_byte = [b4, b5]
    ∧ ni.volume = (if b4 = 12 then calculate_volume b5
        else if (ni.sample_num.isSome || ni.retrigger) then ni.start_volume
        else 0) := by
  by_cases hb0 : b0 = 0
  · subst hb0
    rw [mkNoteInfo_empty b1 b2 b3 b4 b5 samples] at h
    cases h
    refine ⟨rfl, rfl, rfl, rfl, rfl, rfl, rfl, ?_⟩
    by_cases hb4 : b4 = 12 <;> simp [hb4]
  · cases hs : samples.get? (b0 + b1 * 16 - 1) with
    | none =>
      rw [mkNoteInfo_oob b0 b1 b2 b3 b4 b5 samples hb0 hs] at h
      cases h
    | some slot =>
      cases slot with
      | none =>
        rw [mkNoteInfo_absent b0 b1 b2 b3 b4 b5 samples hb0 hs] at h
        cases h
        refine ⟨by simp [hb0], rfl, rfl, rfl, rfl, rfl, rfl, ?_⟩
        by_cases hb4 : b4 = 12 <;> simp [hb4]
      | some s =>
        rw [mkNoteInfo_present b0 b1 b2 b3 b4 b5 samples s hb0 hs] at h
        cases h
        refine ⟨by simp [hb0], rfl, rfl, rfl, rfl, rfl, rfl, ?_⟩
        by_cases hb4 : b4 = 12 <;> simp [hb4]

/-- **C8.** The volume curve satisfies `curve(0) = 0`, is injective on positive
bytes, and is strictly increasing on positive bytes. -/
theorem claim_C8_volume_curve :
    calculate_volume 0 = 0
    ∧ (∀ b b' : Nat, 0 < b → 0 < b' →
        (calculate_volume b = calculate_volume b' ↔ b = b'))
    ∧ (∀ b b' : Nat, 0 < b → b < b' → calculate_volume b < calculate_volume b') := by
  refine ⟨rfl, ?_, ?_⟩
  · intro b b' hb hb'
    unfold calculate_volume
    rw [if_neg (Nat.pos_iff_ne_zero.mp hb), if_neg (Nat.pos_iff_ne_zero.mp hb')]
    constructor
    · intro h
      have h2 : b - 1 = b' - 1 := Nat.eq_of_mul_eq_mul_right (by norm_num) h
      omega
    · intro h; rw [h]
  · intro b b' hb hlt
    unfold calculate_volume
    rw [if_neg (Nat.pos_iff_ne_zero.mp hb), if_neg (by omega : ¬ b' = 0)]
    omega

/-- Witness for C8: instantiation at `b = 1`, `b' = 2`. -/
theorem claim_C8_witness :
    calculate_volume 0 = 0 ∧ calculate_volume 1 < calculate_volume 2 := by
  exact ⟨claim_C8_volume_curve.1,
    claim_C8_volume_curve.2.2 1 2 (by decide) (by decide)⟩

/-- **C1 counterexample.** The claim says `consume(n)`/`peek(n)` fail with an
out-of-bounds error when `n` exceeds the remaining length and that the
position never exceeds the buffer length.  On the buffer `[1,2]`, reading 5
bytes instead silently returns the 2-byte slice `[1,2]` and leaves the
position at 5, beyond the buffer length 2. -/
theorem claim_C1_counterexample :
    (VirtualFile.read ⟨[1, 2], 0⟩ 5).1 = [1, 2]
    ∧ (VirtualFile.read ⟨[1, 2], 0⟩ 5).1.length = 2
    ∧ (VirtualFile.read ⟨[1, 2], 0⟩ 5).2.pos = 5
    ∧ (VirtualFile.peak ⟨[1, 2], 0⟩ 5).length = 2
    ∧ ¬ (VirtualFile.read ⟨[1, 2], 0⟩ 5).2.pos ≤ (⟨[1, 2], 0⟩ : VirtualFile).size := by
  refine ⟨rfl, rfl, rfl, rfl, ?_⟩
  decide

/-- **C1 (amended).** `read(n)` returns the next `min(n, remaining)` bytes
without any error (a shorter or empty slice when `n` exceeds the remaining
length), always advances the position by exactly `n` (so the position is
monotonically non-decreasing but may exceed the buffer length), and
`peak(n)` returns the same slice without advancing. -/
theorem claim_C1_amended (vf : VirtualFile) (n : Nat) :
    (vf.read n).1.length = min n (vf.size - vf.pos)
    ∧ (vf.read n).2.pos = vf.pos + n
    ∧ vf.pos ≤ (vf.read n).2.pos
    ∧ (vf.read n).2.data = vf.data
    ∧ vf.peak n = (vf.read n).1 := by
  refine ⟨?_, rfl, Nat.le_add_right _ _, rfl, rfl⟩
  simp [VirtualFile.read, VirtualFile.size]

/-- **C4 counterexample.** The claim says the sample reference is empty exactly
when the combined value `byte0 + byte1*16` is zero.  The record
`[0,1,0,0,0,0]` has combined value 16, yet the decoder stores the empty
marker because it tests only `bytes[0] != 0`. -/
theorem claim_C4_counterexample :
    (0 : Nat) + 1 * 16 ≠ 0
    ∧ (mkNoteInfo [0, 1, 0, 0, 0, 0] (List.replicate 31 none)).map
        (fun ni => ni.sample_num) = .ok none := by
  exact ⟨by decide, rfl⟩

/-- **C4 (amended).** The decoded sample reference is empty exactly when
`byte0 = 0`; whenever `byte0 ≠ 0` the stored reference is the combined value
`byte0 + byte1*16`. -/
theorem claim_C4_amended (b0 b1 b2 b3 b4 b5 : Nat)
    (samples : List (Option Sample)) (ni : NoteInfo)
    (h : mkNoteInfo [b0, b1, b2, b3, b4, b5] samples = .ok ni) :
    (ni.sample_num = none ↔ b0 = 0)
    ∧ (b0 ≠ 0 → ni.sample_num = some (b0 + b1 * 16)) := by
  have hf := (mkNoteInfo_ok_fields b0 b1 b2 b3 b4 b5 samples ni h).1
  by_cases hb0 : b0 = 0
  · simp [hb0] at hf
    simp [hb0, hf]
  · simp [hb0] at hf
    simp [hb0, hf]

/-- Witness for the amended C4, at the record `[3,0,0,0,0,0]` against the
all-absent 31-slot table. -/
theorem claim_C4_amended_witness :
    (exOk (mkNoteInfo [3, 0, 0, 0, 0, 0] (List.replicate 31 none))
      blankNote).sample_num = some 3 := by
  have h : mkNoteInfo [3, 0, 0, 0, 0, 0] (List.replicate 31 none) =
      .ok (exOk (mkNoteInfo [3, 0, 0, 0, 0, 0] (List.replicate 31 none))
        blankNote) := rfl
  exact (claim_C4_amended 3 0 0 0 0 0 _ _ h).2 (by decide)

end MusExtract

namespace MusExtract

/-- Reformulation of `get_sample_data` exposing the inner cursor and the final
outer cursor explicitly (definitional). -/
lemma get_sample_data_eq (vf : VirtualFile) :
    get_sample_data vf =
      match sampleLoop ⟨(vf.data.drop vf.pos).take HEADER_BYTES, 20⟩ 0 31 with
      | .error e => .error e
      | .ok (samples, _) => .ok (samples, ⟨vf.data, vf.pos + HEADER_BYTES⟩) := rfl

/-- The 31-iteration sample loop returns one slot per iteration. -/
lemma sampleLoop_length (k : Nat) :
    ∀ (inner : VirtualFile) (i : Nat) l vfF,
      sampleLoop inner i k = .ok (l, vfF) → l.length = k := by
  induction k with
  | zero =>
    intro inner i l vfF h
    cases h
    rfl
  | succ k ih =>
    intro inner i l vfF h
    unfold sampleLoop at h
    cases hp : parseSampleRecord ((inner.read SAMPLE_STRUCT_SIZE).1) i with
    | error e => simp [hp] at h
    | ok slot =>
      cases hrec : sampleLoop ((inner.read SAMPLE_STRUCT_SIZE).2) (i + 1) k with
      | error e => simp [hp, hrec] at h
      | ok p =>
        simp only [hp, hrec, Except.ok.injEq, Prod.ext_iff] at h
        rw [← h.1]
        simp [ih _ _ _ _ hrec]

/-- `start_volume` of a decoded record is the referenced sample's stored
volume when one resolves, and 0 otherwise. -/
lemma mkNoteInfo_start_volume (b0 b1 b2 b3 b4 b5 : Nat)
    (samples : List (Option Sample)) (ni : NoteInfo)
    (h : mkNoteInfo [b0, b1, b2, b3, b4, b5] samples = .ok ni) :
    (∀ s, ni.sample_used = some s → ni.start_volume = s.volume)
    ∧ (ni.sample_used = none → ni.start_volume = 0) := by
  by_cases hb0 : b0 = 0
  · subst hb0
    rw [mkNoteInfo_empty b1 b2 b3 b4 b5 samples] at h
    cases h
    exact ⟨fun s hs => (nomatch hs), fun _ => rfl⟩
  · cases hs : samples.get? (b0 + b1 * 16 - 1) with
    | none =>
      rw [mkNoteInfo_oob b0 b1 b2 b3 b4 b5 samples hb0 hs] at h
      cases h
    | some slot =>
      cases slot with
      | none =>
        rw [mkNoteInfo_absent b0 b1 b2 b3 b4 b5 samples hb0 hs] at h
        cases h
        exact ⟨fun s hs' => (nomatch hs'), fun _ => rfl⟩
      | some s =>
        rw [mkNoteInfo_present b0 b1 b2 b3 b4 b5 samples s hb0 hs] at h
        cases h
        exact ⟨fun s' hs' => (by cases hs'; rfl), fun hcon => (nomatch hcon)⟩

/-- **C5.** Volume resolution of a decoded 6-byte record: effect code 12 sets
the volume to `curve(effect parameter)`; otherwise a present sample
reference or retrigger inherits the start volume (the referenced sample's
curve-converted base volume when one resolves, 0 otherwise); otherwise the
volume is 0.  The last conjunct records that a `Sample`'s stored base volume
is always the curve-converted raw byte. -/
theorem claim_C5_volume_resolution (b0 b1 b2 b3 b4 b5 : Nat)
    (samples : List (Option Sample)) (ni : NoteInfo)
    (h : mkNoteInfo [b0, b1, b2, b3, b4, b5] samples = .ok ni) :
    (b4 = 12 → ni.volume = calculate_volume b5)
    ∧ (b4 ≠ 12 → (ni.sample_num.isSome = true ∨ ni.retrigger = true) →
        ni.volume = ni.start_volume)
    ∧ (b4 ≠ 12 → ni.sample_num = none → ni.retrigger = false → ni.volume = 0)
    ∧ (∀ s, ni.sample_used = some s → ni.start_volume = s.volume)
    ∧ (ni.sample_used = none → ni.start_volume = 0)
    ∧ (∀ nm sz rawvol lps lpe sn,
        (Sample.make nm sz rawvol lps lpe sn).volume = calculate_volume rawvol) := by
  have hf := (mkNoteInfo_ok_fields b0 b1 b2 b3 b4 b5 samples ni h).2.2.2.2.2.2.2
  have hsv := mkNoteInfo_start_volume b0 b1 b2 b3 b4 b5 samples ni h
  refine ⟨?_, ?_, ?_, hsv.1, hsv.2, fun _ _ _ _ _ _ => rfl⟩
  · intro hb4
    rw [hf, if_pos hb4]
  · intro hb4 hor
    rw [hf, if_neg hb4]
    rcases hor with hsome | hret
    · rw [hsome]
      simp
    · rw [hret]
      simp
  · intro hb4 hnone hret
    rw [hf, if_neg hb4, hnone, hret]
    rfl

/-- Witness for C5: record `[1,0,0,0,12,64]` (set-volume effect) against the
all-absent table; the decoded volume is `curve(64)`. -/
theorem claim_C5_witness :
    (exOk (mkNoteInfo [1, 0, 0, 0, 12, 64] (List.replicate 31 none))
      blankNote).volume = calculate_volume 64 := by
  have h : mkNoteInfo [1, 0, 0, 0, 12, 64] (List.replicate 31 none) =
      .ok (exOk (mkNoteInfo [1, 0, 0, 0, 12, 64] (List.replicate 31 none))
        blankNote) := rfl
  exact (claim_C5_volume_resolution 1 0 0 0 12 64 _ _ h).1 rfl

set_option maxRecDepth 40000 in
/-- **C9 counterexample.** The claim says note decoding never throws for any
record against a table decoded from a header region.  The all-zero header
decodes to the 31-slot all-absent table, and the record `[1,2,0,0,0,0]`
(combined sample number 33) then raises an `IndexError` in
`samples[self.sample_num-1]`. -/
theorem claim_C9_counterexample :
    get_sample_data ⟨List.replicate HEADER_BYTES 0, 0⟩ =
      .ok (List.replicate 31 none, ⟨List.replicate HEADER_BYTES 0, HEADER_BYTES⟩)
    ∧ mkNoteInfo [1, 2, 0, 0, 0, 0] (List.replicate 31 none) =
        .error "IndexError: list index out of range"
    ∧ (1 + 2 * 16 : Nat) = 33 := by
  exact ⟨rfl, rfl, rfl⟩

/-- **C9 (amended).** Slots whose 22-byte name field lacks the `".pcm"` marker
decode to the empty slot (while one full `0x2C`-byte record is consumed per
slot: the outer cursor always advances by the full header size. and present
slots keep their 1-based index `i+1`); and note decoding never throws
provided the record's combined sample reference does not exceed the table
length (31 for tables decoded from a header region), with references to
absent slots resolving `sample_used` to empty rather than raising. -/
theorem claim_C9_amended :
    (∀ rec i, rec.length = SAMPLE_STRUCT_SIZE →
        containsBytes pcmMarker (rec.take 22) = false →
        parseSampleRecord rec i = .ok none)
    ∧ (∀ rec i s, parseSampleRecord rec i = .ok (some s) →
        s.snume = i + 1 ∧ containsBytes pcmMarker (rec.take 22) = true)
    ∧ (∀ vf samples vf', get_sample_data vf = .ok (samples, vf') →
        samples.length = 31 ∧ vf'.data = vf.data ∧ vf'.pos = vf.pos + HEADER_BYTES)
    ∧ (∀ (samples : List (Option Sample)) b0 b1 b2 b3 b4 b5,
        b0 + b1 * 16 ≤ samples.length →
        ∃ ni, mkNoteInfo [b0, b1, b2, b3, b4, b5] samples = .ok ni
          ∧ (b0 ≠ 0 → samples.get? (b0 + b1 * 16 - 1) = some none →
              ni.sample_used = none ∧ ni.start_volume = 0)) := by
  refine ⟨?_, ?_, ?_, ?_⟩
  · intro rec i hlen hmark
    unfold parseSampleRecord
    rw [if_pos hlen, if_neg (by simp [hmark])]
  · intro rec i s h
    unfold parseSampleRecord at h
    by_cases hlen : rec.length = SAMPLE_STRUCT_SIZE
    · rw [if_pos hlen] at h
      by_cases hmark : containsBytes pcmMarker (rec.take 22) = true
      · rw [if_pos hmark] at h
        cases h
        exact ⟨rfl, hmark⟩
      · rw [if_neg hmark] at h
        cases h
    · rw [if_neg hlen] at h
      cases h
  · intro vf samples vf' h
    rw [get_sample_data_eq] at h
    revert h
    cases hl : sampleLoop ⟨(vf.data.drop vf.pos).take HEADER_BYTES, 20⟩ 0 31 with
    | error e => intro h; cases h
    | ok p =>
      intro h
      cases h
      exact ⟨sampleLoop_length 31 _ _ _ _ hl, rfl, rfl⟩
  · intro samples b0 b1 b2 b3 b4 b5 hle
    by_cases hb0 : b0 = 0
    · subst hb0
      exact ⟨_, mkNoteInfo_empty b1 b2 b3 b4 b5 samples,
        fun hcon => absurd rfl hcon⟩
    · have hlt : b0 + b1 * 16 - 1 < samples.length := by omega
      cases hs : samples.get? (b0 + b1 * 16 - 1) with
      | none =>
        rw [List.get?_eq_get hlt] at hs
        cases hs
      | some slot =>
        cases slot with
        | none =>
          exact ⟨_, mkNoteInfo_absent b0 b1 b2 b3 b4 b5 samples hb0 hs,
            fun _ _ => ⟨rfl, rfl⟩⟩
        | some s =>
          refine ⟨_, mkNoteInfo_present b0 b1 b2 b3 b4 b5 samples s hb0 hs, ?_⟩
          intro _ hcon
          simp at hcon

/-- Witness for the amended C9: record `[2,0,0,0,0,0]` against the all-absent
31-slot table decodes without error and resolves `sample_used` to empty. -/
theorem claim_C9_amended_witness :
    mkNoteInfo [2, 0, 0, 0, 0, 0] (List.replicate 31 none) =
      .ok (exOk (mkNoteInfo [2, 0, 0, 0, 0, 0] (List.replicate 31 none)) blankNote)
    ∧ (exOk (mkNoteInfo [2, 0, 0, 0, 0, 0] (List.replicate 31 none))
        blankNote).sample_used = none := by
  obtain ⟨ni, hok, hres⟩ :=
    claim_C9_amended.2.2.2 (List.replicate 31 none) 2 0 0 0 0 0 (by decide)
  have h2 := hres (by decide) (by decide)
  constructor
  · rw [hok]
    rfl
  · rw [hok]
    exact h2.1

end MusExtract

namespace MusExtract

/-- The C3 fixture region: LE uint32 words `[2, 0, 0, 5]` followed by zero
padding up to the full `SEQ_INFO_BYTES` region. -/
def c3buf : List Nat :=
  [2, 0, 0, 0, 0, 0, 0, 0, 0, 0, 0, 0, 5, 0, 0, 0]
    ++ List.replicate (SEQ_INFO_BYTES - 16) 0

/-- **C3.** The sequence-order reader appends the first zero as a real entry
and continues; a second zero terminates the list; any nonzero word is
appended.  On the region whose word stream begins `[2, 0, 0, 5, ...]` this
yields channel count 2, declared sequence count 0 and an empty play order,
with the cursor advanced by the full fixed region size. -/
theorem claim_C3_sequence_order :
    (∀ (vf vf' : VirtualFile) (fuel : Nat), read4LE vf = .ok (0, vf') →
        readSeqList vf true (fuel + 1) = .ok ([], vf')
        ∧ (∀ l vf'', readSeqList vf' true fuel = .ok (l, vf'') →
            readSeqList vf false (fuel + 1) = .ok (0 :: l, vf'')))
    ∧ (∀ (vf vf' : VirtualFile) (v fuel : Nat), read4LE vf = .ok (v, vf') →
        v ≠ 0 → ∀ (fz : Bool) l vf'', readSeqList vf' fz fuel = .ok (l, vf'') →
          readSeqList vf fz (fuel + 1) = .ok (v :: l, vf''))
    ∧ get_seq_data ⟨c3buf, 0⟩ = .ok (2, [], 0, ⟨c3buf, SEQ_INFO_BYTES⟩) := by
  refine ⟨?_, ?_, ?_⟩
  · intro vf vf' fuel h
    constructor
    · simp [readSeqList, h]
    · intro l vf'' hrec
      simp [readSeqList, h, hrec]
  · intro vf vf' v fuel h hv fz l vf'' hrec
    simp [readSeqList, h, hv, hrec]
  · rfl

/-- Witness for C3: the sentinel rule applied at a concrete 4-byte buffer
holding a single zero word with the seen-a-zero flag already set. -/
theorem claim_C3_witness :
    readSeqList ⟨[0, 0, 0, 0], 0⟩ true 1 = .ok ([], ⟨[0, 0, 0, 0], 4⟩) := by
  exact (claim_C3_sequence_order.1 ⟨[0, 0, 0, 0], 0⟩ ⟨[0, 0, 0, 0], 4⟩ 0 rfl).1

end MusExtract

namespace MusExtract

/-- The break condition of the duration-lookahead loop in
`generate_midi_tracks`: `d_note.retrigger or d_note.sample_used is not None`.
Note it tests the *resolved* sample (`sample_used`), not the raw sample
reference. -/
def breaksLookahead (d : NoteInfo) : Bool :=
  d.retrigger || d.sample_used.isSome

/-- Final value of `d_iter` after `for d_iter, d_note in enumerate(suffix)`
with the break condition above, for a nonempty suffix: the index of the
first breaking event, or the last index when no event breaks. -/
def d_iterRun : List NoteInfo → Nat
  | [] => 0
  | d :: rest =>
    if breaksLookahead d then 0
    else
      match rest with
      | [] => 0
      | _ :: _ => 1 + d_iterRun rest

/-- The value `d_iter` holds after the lookahead loop at one note, given the
value it carried from earlier iterations: an empty suffix leaves the loop
body unexecuted, so Python reuses the stale value (a `NameError` when no
earlier iteration ever assigned it). -/
def lookaheadVal (rest : List NoteInfo) (d_iter0 : Option Nat) :
    Except String Nat :=
  match rest with
  | [] =>
    match d_iter0 with
    | none => .error "NameError: d_iter is not defined"
    | some d => .ok d
  | _ :: _ => .ok (d_iterRun rest)

/-- One `mf.addNote(...)` call: pitch, strike time, duration (in the source's
time units; one time-step is 1/4 unit) and velocity. -/
structure MidiNote where
  pitch : Nat
  time : ℚ
  dur : ℚ
  vol : Nat
deriving DecidableEq

/-- One `mf.addControllerEvent(..., 7, volume)` call from the `'None'`-pitch
branch: the (stale) time variable and the applied volume. -/
structure CtrlEvent where
  time : ℚ
  vol : Nat
deriving DecidableEq

/-- The `for n_index, note in enumerate(channel)` walk of one channel in
`generate_midi_tracks`, for one play-order position `cur_time`.  `d_iter0`
is the value the Python function-scoped `d_iter` variable carries into the
walk and `time` the current value of the `time` variable.  Pitch-`'None'`
steps never emit a note; with effect code 12 they emit a volume controller
event at the stale `time`.  Other steps emit a note at
`cur_time*16 + n_index/4` whose duration is `(d_iter+1)/4`. -/
def emitLoop : List NoteInfo → Nat → Nat → Option Nat → ℚ →
    Except String (List MidiNote × List CtrlEvent × ℚ)
  | [], _, _, _, time => .ok ([], [], time)
  | note :: rest, n_index, cur_time, d_iter0, time =>
    if note.note_played = "None" then
      match note.third_byte.get? 0 with
      | none => .error "IndexError: list index out of range"
      | some t =>
        match emitLoop rest (n_index + 1) cur_time d_iter0 time with
        | .error e => .error e
        | .ok (ns, cs, timeF) =>
          if t = 12 then .ok (ns, ⟨time, note.volume⟩ :: cs, timeF)
          else .ok (ns, cs, timeF)
    else
      match lookaheadVal rest d_iter0 with
      | .error e => .error e
      | .ok d_iter =>
        match emitLoop rest (n_index + 1) cur_time (some d_iter)
            ((cur_time : ℚ) * 16 + (n_index : ℚ) / 4) with
        | .error e => .error e
        | .ok (ns, cs, timeF) =>
          .ok (⟨note.note_played_raw, (cur_time : ℚ) * 16 + (n_index : ℚ) / 4,
                ((d_iter : ℚ) + 1) / 4, note.volume⟩ :: ns, cs, timeF)

/-- One channel's walk, from step 0. -/
def emitChannel (channel : List NoteInfo) (cur_time : Nat)
    (d_iter0 : Option Nat) (time0 : ℚ) :
    Except String (List MidiNote × List CtrlEvent × ℚ) :=
  emitLoop channel 0 cur_time d_iter0 time0

end MusExtract


namespace MusExtract

/-- Unfolding of `emitLoop` at a `'None'`-pitch head. -/
lemma emitLoop_cons_none (note0 : NoteInfo) (rest : List NoteInfo)
    (n ct : Nat) (d0 : Option Nat) (time : ℚ)
    (hnp : note0.note_played = "None") :
    emitLoop (note0 :: rest) n ct d0 time =
      match note0.third_byte.get? 0 with
      | none => .error "IndexError: list index out of range"
      | some t =>
        match emitLoop rest (n + 1) ct d0 time with
        | .error e => .error e
        | .ok (ns, cs, timeF) =>
          if t = 12 then .ok (ns, ⟨time, note0.volume⟩ :: cs, timeF)
          else .ok (ns, cs, timeF) := by
  conv_lhs => rw [emitLoop]
  rw [if_pos hnp]

/-- Unfolding of `emitLoop` at a sounding head. -/
lemma emitLoop_cons_note (note0 : NoteInfo) (rest : List NoteInfo)
    (n ct : Nat) (d0 : Option Nat) (time : ℚ)
    (hnp : ¬ note0.note_played = "None") :
    emitLoop (note0 :: rest) n ct d0 time =
      match lookaheadVal rest d0 with
      | .error e => .error e
      | .ok d_iter =>
        match emitLoop rest (n + 1) ct (some d_iter)
            ((ct : ℚ) * 16 + (n : ℚ) / 4) with
        | .error e => .error e
        | .ok (ns, cs, timeF) =>
          .ok (⟨note0.note_played_raw, (ct : ℚ) * 16 + (n : ℚ) / 4,
                ((d_iter : ℚ) + 1) / 4, note0.volume⟩ :: ns, cs, timeF) := by
  conv_lhs => rw [emitLoop]
  rw [if_neg hnp]

/-- When some event of a nonempty suffix satisfies the break condition, the
lookahead loop stops at the first such event. -/
lemma d_iterRun_eq_findIdx (l : List NoteInfo)
    (h : l.any breaksLookahead = true) :
    d_iterRun l = l.findIdx breaksLookahead := by
  induction l with
  | nil => simp at h
  | cons d rest ih =>
    cases hd : breaksLookahead d with
    | true => simp [d_iterRun, hd, List.findIdx_cons]
    | false =>
      simp only [List.any_cons, hd, Bool.false_or] at h
      cases rest with
      | nil => simp at h
      | cons e rs =>
        have hrun : d_iterRun (d :: e :: rs) = 1 + d_iterRun (e :: rs) := by
          simp [d_iterRun, hd]
        rw [hrun, ih h, List.findIdx_cons breaksLookahead d (e :: rs), hd]
        simp [Nat.add_comm]

end MusExtract

namespace MusExtract

/-- Every note emitted by the channel walk comes from a position whose decoded
pitch is not the `'None'` sentinel, strikes at `cur_time*16 + position/4`,
and carries that position's raw pitch and volume. -/
lemma emitLoop_mem_notes (cur : List NoteInfo) :
    ∀ (n ct : Nat) (d0 : Option Nat) (time : ℚ) notes ctrls tF,
      emitLoop cur n ct d0 time = .ok (notes, ctrls, tF) →
      ∀ m ∈ notes, ∃ k note, cur.get? k = some note
        ∧ note.note_played ≠ "None"
        ∧ m.pitch = note.note_played_raw ∧ m.vol = note.volume
        ∧ m.time = (ct : ℚ) * 16 + ((n + k : Nat) : ℚ) / 4 := by
  induction cur with
  | nil =>
    intro n ct d0 time notes ctrls tF h m hm
    cases h
    simp at hm
  | cons note0 rest ih =>
    intro n ct d0 time notes ctrls tF h m hm
    by_cases hnp : note0.note_played = "None"
    · rw [emitLoop_cons_none note0 rest n ct d0 time hnp] at h
      cases h3 : note0.third_byte.get? 0 with
      | none =>
        simp only [h3] at h
        exact Except.noConfusion h
      | some t =>
        simp only [h3] at h
        cases hrec : emitLoop rest (n + 1) ct d0 time with
        | error e =>
          simp only [hrec] at h
          exact Except.noConfusion h
        | ok trip =>
          obtain ⟨ns, cs, timeF⟩ := trip
          simp only [hrec] at h
          have hmem : m ∈ ns := by
            by_cases ht : t = 12
            · rw [if_pos ht] at h
              injection h with h'
              injection h' with ha hb
              rw [← ha] at hm
              exact hm
            · rw [if_neg ht] at h
              injection h with h'
              injection h' with ha hb
              rw [← ha] at hm
              exact hm
          obtain ⟨k, note, hget, hnn, hp, hv, htm⟩ :=
            ih (n + 1) ct d0 time ns cs timeF hrec m hmem
          refine ⟨k + 1, note, by simpa using hget, hnn, hp, hv, ?_⟩
          rw [htm, show n + 1 + k = n + (k + 1) from by omega]
    · rw [emitLoop_cons_note note0 rest n ct d0 time hnp] at h
      cases hla : lookaheadVal rest d0 with
      | error e =>
        simp only [hla] at h
        exact Except.noConfusion h
      | ok d_iter =>
        simp only [hla] at h
        cases hrec : emitLoop rest (n + 1) ct (some d_iter)
            ((ct : ℚ) * 16 + (n : ℚ) / 4) with
        | error e =>
          simp only [hrec] at h
          exact Except.noConfusion h
        | ok trip =>
          obtain ⟨ns, cs, timeF⟩ := trip
          simp only [hrec] at h
          injection h with h'
          injection h' with ha hb
          rw [← ha] at hm
          rcases List.mem_cons.mp hm with hm0 | hmem
          · subst hm0
            exact ⟨0, note0, rfl, hnp, rfl, rfl, by norm_num⟩
          · obtain ⟨k, note, hget, hnn, hp, hv, htm⟩ :=
              ih (n + 1) ct (some d_iter) _ ns cs timeF hrec m hmem
            refine ⟨k + 1, note, by simpa using hget, hnn, hp, hv, ?_⟩
            rw [htm, show n + 1 + k = n + (k + 1) from by omega]

end MusExtract

namespace MusExtract

/-- Every sounding position whose suffix contains a breaking event emits a
note at `cur_time*16 + position/4` whose duration is
`(firstBreakIndex + 1)/4` time units. -/
lemma emitLoop_note_at (cur : List NoteInfo) :
    ∀ (n ct : Nat) (d0 : Option Nat) (time : ℚ) notes ctrls tF,
      emitLoop cur n ct d0 time = .ok (notes, ctrls, tF) →
      ∀ j note, cur.get? j = some note → note.note_played ≠ "None" →
        (cur.drop (j + 1)).any breaksLookahead = true →
        ∃ m ∈ notes, m.time = (ct : ℚ) * 16 + ((n + j : Nat) : ℚ) / 4
          ∧ m.pitch = note.note_played_raw ∧ m.vol = note.volume
          ∧ m.dur = (((cur.drop (j + 1)).findIdx breaksLookahead : ℚ) + 1) / 4 := by
  induction cur with
  | nil =>
    intro n ct d0 time notes ctrls tF h j note hget hnn hany
    simp at hget
  | cons note0 rest ih =>
    intro n ct d0 time notes ctrls tF h j note hget hnn hany
    cases j with
    | zero =>
      injection hget with hg
      subst hg
      rw [emitLoop_cons_note note0 rest n ct d0 time hnn] at h
      simp only [List.drop_succ_cons, List.drop_zero] at hany ⊢
      have hrest : rest ≠ [] := by
        intro hcon
        rw [hcon] at hany
        simp at hany
      have hla : lookaheadVal rest d0 = .ok (d_iterRun rest) := by
        cases rest with
        | nil => exact absurd rfl hrest
        | cons e rs => rfl
      simp only [hla] at h
      cases hrec : emitLoop rest (n + 1) ct (some (d_iterRun rest))
          ((ct : ℚ) * 16 + (n : ℚ) / 4) with
      | error e =>
        simp only [hrec] at h
        exact Except.noConfusion h
      | ok trip =>
        obtain ⟨ns, cs, timeF⟩ := trip
        simp only [hrec] at h
        injection h with h'
        injection h' with ha hb
        refine ⟨⟨note0.note_played_raw, (ct : ℚ) * 16 + (n : ℚ) / 4,
          ((d_iterRun rest : ℚ) + 1) / 4, note0.volume⟩, ?_, by norm_num,
          rfl, rfl, ?_⟩
        · rw [← ha]
          exact List.mem_cons_self _ _
        · rw [d_iterRun_eq_findIdx rest hany]
    | succ j =>
      have hget' : rest.get? j = some note := by simpa using hget
      have hany' : (rest.drop (j + 1)).any breaksLookahead = true := by
        simpa using hany
      by_cases hnp : note0.note_played = "None"
      · rw [emitLoop_cons_none note0 rest n ct d0 time hnp] at h
        cases h3 : note0.third_byte.get? 0 with
        | none =>
          simp only [h3] at h
          exact Except.noConfusion h
        | some t =>
          simp only [h3] at h
          cases hrec : emitLoop rest (n + 1) ct d0 time with
          | error e =>
            simp only [hrec] at h
            exact Except.noConfusion h
          | ok trip =>
            obtain ⟨ns, cs, timeF⟩ := trip
            simp only [hrec] at h
            have hns : ns = notes := by
              by_cases ht : t = 12
              · rw [if_pos ht] at h
                exact congrArg Prod.fst (Except.ok.inj h)
              · rw [if_neg ht] at h
                exact congrArg Prod.fst (Except.ok.inj h)
            obtain ⟨m, hmem, htm, hp, hv, hd⟩ :=
              ih (n + 1) ct d0 time ns cs timeF hrec j note hget' hnn hany'
            refine ⟨m, by rw [← hns]; exact hmem, ?_, hp, hv, ?_⟩
            · rw [htm, show n + 1 + j = n + (j + 1) from by omega]
            · rw [hd]
              simp [List.drop_succ_cons]
      · rw [emitLoop_cons_note note0 rest n ct d0 time hnp] at h
        cases hla : lookaheadVal rest d0 with
        | error e =>
          simp only [hla] at h
          exact Except.noConfusion h
        | ok d_iter =>
          simp only [hla] at h
          cases hrec : emitLoop rest (n + 1) ct (some d_iter)
              ((ct : ℚ) * 16 + (n : ℚ) / 4) with
          | error e =>
            simp only [hrec] at h
            exact Except.noConfusion h
          | ok trip =>
            obtain ⟨ns, cs, timeF⟩ := trip
            simp only [hrec] at h
            injection h with h'
            injection h' with ha hb
            obtain ⟨m, hmem, htm, hp, hv, hd⟩ :=
              ih (n + 1) ct (some d_iter) _ ns cs timeF hrec j note hget' hnn hany'
            refine ⟨m, by rw [← ha]; exact List.mem_cons_of_mem _ hmem, ?_, hp, hv, ?_⟩
            · rw [htm, show n + 1 + j = n + (j + 1) from by omega]
            · rw [hd]
              simp [List.drop_succ_cons]

/-- Every `'None'`-pitch position whose effect code is 12 contributes a
volume controller event. -/
lemma emitLoop_ctrl_at (cur : List NoteInfo) :
    ∀ (n ct : Nat) (d0 : Option Nat) (time : ℚ) notes ctrls tF,
      emitLoop cur n ct d0 time = .ok (notes, ctrls, tF) →
      ∀ j note, cur.get? j = some note → note.note_played = "None" →
        note.third_byte.get? 0 = some 12 →
        ∃ c ∈ ctrls, c.vol = note.volume := by
  induction cur with
  | nil =>
    intro n ct d0 time notes ctrls tF h j note hget hnone h12
    simp at hget
  | cons note0 rest ih =>
    intro n ct d0 time notes ctrls tF h j note hget hnone h12
    cases j with
    | zero =>
      injection hget with hg
      subst hg
      rw [emitLoop_cons_none note0 rest n ct d0 time hnone] at h
      simp only [h12] at h
      cases hrec : emitLoop rest (n + 1) ct d0 time with
      | error e =>
        simp only [hrec] at h
        exact Except.noConfusion h
      | ok trip =>
        obtain ⟨ns, cs, timeF⟩ := trip
        simp only [hrec, if_pos rfl] at h
        injection h with h'
        injection h' with ha hb
        injection hb with hb1 hb2
        exact ⟨⟨time, note0.volume⟩, by rw [← hb1]; exact List.mem_cons_self _ _, rfl⟩
    | succ j =>
      have hget' : rest.get? j = some note := by simpa using hget
      by_cases hnp : note0.note_played = "None"
      · rw [emitLoop_cons_none note0 rest n ct d0 time hnp] at h
        cases h3 : note0.third_byte.get? 0 with
        | none =>
          simp only [h3] at h
          exact Except.noConfusion h
        | some t =>
          simp only [h3] at h
          cases hrec : emitLoop rest (n + 1) ct d0 time with
          | error e =>
            simp only [hrec] at h
            exact Except.noConfusion h
          | ok trip =>
            obtain ⟨ns, cs, timeF⟩ := trip
            simp only [hrec] at h
            obtain ⟨c, hcm, hcv⟩ :=
              ih (n + 1) ct d0 time ns cs timeF hrec j note hget' hnone h12
            by_cases ht : t = 12
            · rw [if_pos ht] at h
              injection h with h'
              injection h' with ha hb
              injection hb with hb1 hb2
              exact ⟨c, by rw [← hb1]; exact List.mem_cons_of_mem _ hcm, hcv⟩
            · rw [if_neg ht] at h
              injection h with h'
              injection h' with ha hb
              injection hb with hb1 hb2
              exact ⟨c, by rw [← hb1]; exact hcm, hcv⟩
      · rw [emitLoop_cons_note note0 rest n ct d0 time hnp] at h
        cases hla : lookaheadVal rest d0 with
        | error e =>
          simp only [hla] at h
          exact Except.noConfusion h
        | ok d_iter =>
          simp only [hla] at h
          cases hrec : emitLoop rest (n + 1) ct (some d_iter)
              ((ct : ℚ) * 16 + (n : ℚ) / 4) with
          | error e =>
            simp only [hrec] at h
            exact Except.noConfusion h
          | ok trip =>
            obtain ⟨ns, cs, timeF⟩ := trip
            simp only [hrec] at h
            injection h with h'
            injection h' with ha hb
            injection hb with hb1 hb2
            obtain ⟨c, hcm, hcv⟩ :=
              ih (n + 1) ct (some d_iter) _ ns cs timeF hrec j note hget' hnone h12
            exact ⟨c, by rw [← hb1]; exact hcm, hcv⟩

end MusExtract

namespace MusExtract

/-- **C6.** Pitch byte 255 decodes to the `'None'` sentinel and such positions
never produce a note-on; for `p < 255` the MIDI-suitable raw pitch is
`p / 8 + 12`; pitch byte 96 decodes exactly one octave (12 semitones) above
pitch byte 0; and 12 (the value at pitch byte 0) is the lowest raw pitch. -/
theorem claim_C6_pitch_decoding :
    calculate_note 255 = "None"
    ∧ (∀ b0 b1 p b3 b4 b5 samples ni,
        mkNoteInfo [b0, b1, p, b3, b4, b5] samples = .ok ni →
        (p < 255 → ni.note_played_raw = p / 8 + 12)
        ∧ (p = 255 → ni.note_played = "None")
        ∧ 12 ≤ ni.note_played_raw)
    ∧ (∀ b0 b1 b3 b4 b5 c0 c1 c3 c4 c5 samplesA samplesB ni96 ni0,
        mkNoteInfo [b0, b1, 96, b3, b4, b5] samplesA = .ok ni96 →
        mkNoteInfo [c0, c1, 0, c3, c4, c5] samplesB = .ok ni0 →
        ni96.note_played_raw = ni0.note_played_raw + 12)
    ∧ (∀ channel (ct : Nat) (d0 : Option Nat) (t0 : ℚ) notes ctrls tF j note,
        emitChannel channel ct d0 t0 = .ok (notes, ctrls, tF) →
        channel.get? j = some note → note.note_played = "None" →
        ∀ m ∈ notes, m.time ≠ (ct : ℚ) * 16 + (j : ℚ) / 4) := by
  refine ⟨rfl, ?_, ?_, ?_⟩
  · intro b0 b1 p b3 b4 b5 samples ni h
    obtain ⟨-, -, hnote, hraw, -, -, -, -⟩ :=
      mkNoteInfo_ok_fields b0 b1 p b3 b4 b5 samples ni h
    refine ⟨fun _ => hraw, fun hp => ?_, by omega⟩
    rw [hnote, hp]
    rfl
  · intro b0 b1 b3 b4 b5 c0 c1 c3 c4 c5 samplesA samplesB ni96 ni0 h96 h0
    have hr96 := (mkNoteInfo_ok_fields b0 b1 96 b3 b4 b5 samplesA ni96 h96).2.2.2.1
    have hr0 := (mkNoteInfo_ok_fields c0 c1 0 c3 c4 c5 samplesB ni0 h0).2.2.2.1
    rw [hr96, hr0]
  · intro channel ct d0 t0 notes ctrls tF j note h hget hnone m hm htm
    obtain ⟨k, note', hget', hnn, -, -, htime⟩ :=
      emitLoop_mem_notes channel 0 ct d0 t0 notes ctrls tF h m hm
    rw [htime] at htm
    have hkj : k = j := by
      have hdiv := add_left_cancel htm
      field_simp at hdiv
      exact_mod_cast hdiv
    subst hkj
    rw [hget] at hget'
    injection hget' with hg
    rw [hg] at hnone
    exact hnn hnone

/-- Witness for C6: pitch bytes 96 and 0 at concrete records. -/
theorem claim_C6_witness :
    calculate_note 255 = "None"
    ∧ (exOk (mkNoteInfo [0, 0, 96, 0, 0, 0] (List.replicate 31 none))
        blankNote).note_played_raw
      = (exOk (mkNoteInfo [0, 0, 0, 0, 0, 0] (List.replicate 31 none))
          blankNote).note_played_raw + 12 := by
  refine ⟨claim_C6_pitch_decoding.1, ?_⟩
  exact claim_C6_pitch_decoding.2.2.1 0 0 0 0 0 0 0 0 0 0
    (List.replicate 31 none) (List.replicate 31 none) _ _ rfl rfl

/-- C7 fixture: a sounding note (pitch byte 0) with no sample and no
retrigger. -/
def fixE0 : NoteInfo :=
  { start_volume := 0, sample_used := none, volume := 0, sample_num := none,
    second_byte := [0, 0], note_played := "C0", retrigger := false,
    note_played_raw := 12, note_played_midi := 24, third_byte := [0, 0] }

/-- C7 fixture: a record carrying sample reference 5 whose slot is absent
(`sample_used` empty), pitch `'None'`, no retrigger. -/
def fixE1 : NoteInfo :=
  { start_volume := 0, sample_used := none, volume := 0, sample_num := some 5,
    second_byte := [255, 0], note_played := "None", retrigger := false,
    note_played_raw := 43, note_played_midi := 55, third_byte := [0, 0] }

/-- C7 fixture: a retrigger record with pitch `'None'`. -/
def fixE2 : NoteInfo :=
  { start_volume := 0, sample_used := none, volume := 0, sample_num := none,
    second_byte := [255, 1], note_played := "None", retrigger := true,
    note_played_raw := 43, note_played_midi := 55, third_byte := [0, 0] }

/-- **C7 counterexample.**  In the channel `[fixE0, fixE1, fixE2]`, the event
one step after the sounding note carries sample reference 5, so the claim
predicts duration `1/4`; but that slot is absent, the lookahead skips it
(it tests the resolved `sample_used`, not the reference), stops at the
retrigger two steps away, and the emitted duration is `2/4 = 1/2`. -/
theorem claim_C7_counterexample :
    mkNoteInfo [0, 0, 0, 0, 0, 0] (List.replicate 31 none) = .ok fixE0
    ∧ mkNoteInfo [5, 0, 255, 0, 0, 0] (List.replicate 31 none) = .ok fixE1
    ∧ mkNoteInfo [0, 0, 255, 1, 0, 0] (List.replicate 31 none) = .ok fixE2
    ∧ fixE1.sample_num = some 5
    ∧ fixE1.retrigger = false
    ∧ fixE0.note_played ≠ "None"
    ∧ emitChannel [fixE0, fixE1, fixE2] 0 none 0 =
        .ok ([⟨12, ((0 : Nat) : ℚ) * 16 + ((0 : Nat) : ℚ) / 4,
          (((1 : Nat) : ℚ) + 1) / 4, 0⟩], [],
          ((0 : Nat) : ℚ) * 16 + ((0 : Nat) : ℚ) / 4)
    ∧ (((1 : Nat) : ℚ) + 1) / 4 = 1 / 2
    ∧ ((1 : ℚ) / 2) ≠ 1 / 4 := by
  refine ⟨rfl, rfl, rfl, rfl, rfl, by decide, rfl, by norm_num, by norm_num⟩

/-- **C7 (amended).** The emitted note's duration is the distance to the next
later event in the channel that is a retrigger or whose sample reference
*resolves to a present sample* (`sample_used` non-empty), divided by 4,
whenever such an event exists; a `'None'`-pitch event never starts a note,
but with effect code 12 its volume is applied as a controller event. -/
theorem claim_C7_amended :
    ∀ channel (ct : Nat) (d0 : Option Nat) (t0 : ℚ) notes ctrls tF,
      emitChannel channel ct d0 t0 = .ok (notes, ctrls, tF) →
      ∀ j note, channel.get? j = some note →
        (note.note_played ≠ "None" →
          (channel.drop (j + 1)).any breaksLookahead = true →
          ∃ m ∈ notes, m.time = (ct : ℚ) * 16 + (j : ℚ) / 4
            ∧ m.pitch = note.note_played_raw ∧ m.vol = note.volume
            ∧ m.dur = (((channel.drop (j + 1)).findIdx breaksLookahead : ℚ) + 1) / 4)
        ∧ (note.note_played = "None" → note.third_byte.get? 0 = some 12 →
            ∃ c ∈ ctrls, c.vol = note.volume) := by
  intro channel ct d0 t0 notes ctrls tF h j note hget
  constructor
  · intro hnn hany
    obtain ⟨m, hmem, htm, hp, hv, hd⟩ :=
      emitLoop_note_at channel 0 ct d0 t0 notes ctrls tF h j note hget hnn hany
    refine ⟨m, hmem, ?_, hp, hv, hd⟩
    rw [htm]
    norm_num
  · intro hnone h12
    exact emitLoop_ctrl_at channel 0 ct d0 t0 notes ctrls tF h j note hget
      hnone h12

/-- Witness for the amended C7: in the channel `[fixE0, fixE2]` the retrigger
is one step after the sounding note, and the emitted duration is `1/4`. -/
theorem claim_C7_amended_witness :
    ∃ m ∈ (exOk (emitChannel [fixE0, fixE2] 0 none 0) ([], [], 0)).1,
      m.time = ((0 : Nat) : ℚ) * 16 + ((0 : Nat) : ℚ) / 4
      ∧ m.pitch = fixE0.note_played_raw ∧ m.vol = fixE0.volume
      ∧ m.dur = ((([fixE0, fixE2].drop (0 + 1)).findIdx breaksLookahead : ℚ) + 1) / 4 := by
  have h : emitChannel [fixE0, fixE2] 0 none 0 =
      .ok ((exOk (emitChannel [fixE0, fixE2] 0 none 0) ([], [], 0)).1,
           (exOk (emitChannel [fixE0, fixE2] 0 none 0) ([], [], 0)).2.1,
           (exOk (emitChannel [fixE0, fixE2] 0 none 0) ([], [], 0)).2.2) := rfl
  exact (claim_C7_amended [fixE0, fixE2] 0 none 0 _ _ _ h 0 fixE0 rfl).1
    (by decide) (by decide)

end MusExtract

namespace MusExtract

/-- The `seq_info[channel]` update of `get_note_info`: start a fresh list when
the slot is still `None`, else append.  In every call `ch` is within range
(the loop iterates `channel in range(num_channels)` over a list built as
`[None] * num_channels`). -/
def updateChannel (si : List (Option (List NoteInfo))) (ch : Nat)
    (note : NoteInfo) : List (Option (List NoteInfo)) :=
  match si.getD ch none with
  | none => si.set ch (some [note])
  | some l => si.set ch (some (l ++ [note]))

/-- The `for channel in range(num_channels)` loop of one time-step: one 6-byte
read and one `NoteInfo` per channel. -/
def chanLoop (samples : List (Option Sample)) :
    List Nat → VirtualFile → List (Option (List NoteInfo)) →
    Except String (List (Option (List NoteInfo)) × VirtualFile)
  | [], nf, si => .ok (si, nf)
  | ch :: chans, nf, si =>
    let r := nf.read 6
    match mkNoteInfo r.1 samples with
    | .error e => .error e
    | .ok note => chanLoop samples chans r.2 (updateChannel si ch note)

/-- The `for _ in range(64)` loop of one sequence. -/
def stepLoop (samples : List (Option Sample)) (num_channels : Nat) :
    Nat → VirtualFile → List (Option (List NoteInfo)) →
    Except String (List (Option (List NoteInfo)) × VirtualFile)
  | 0, nf, si => .ok (si, nf)
  | k + 1, nf, si =>
    match chanLoop samples (List.range num_channels) nf si with
    | .error e => .error e
    | .ok (si', nf') => stepLoop samples num_channels k nf' si'

/-- The `for i in range(num_seqs)` loop of `get_note_info`: each sequence is
64 time-steps over a fresh `[None] * num_channels` channel array. -/
def noteLoop (samples : List (Option Sample)) (num_channels : Nat) :
    Nat → VirtualFile →
    Except String (List (List (Option (List NoteInfo))) × VirtualFile)
  | 0, nf => .ok ([], nf)
  | k + 1, nf =>
    match stepLoop samples num_channels 64 nf
        (List.replicate num_channels none) with
    | .error e => .error e
    | .ok (si, nf') =>
      match noteLoop samples num_channels k nf' with
      | .error e => .error e
      | .ok (rest, nfF) => .ok (si :: rest, nfF)

/-- `get_note_info` from the source.  `data_size` is
`vfile.size - SEQ_INFO_BYTES - HEADER_BYTES` (the source computes this on a
Python int; files shorter than `0x774` would make it negative there, the
truncated `Nat` subtraction matches all files of at least the two fixed
regions).  `num_seqs = int(data_size / section_size)` silently floors; a
channel count of zero is Python's `ZeroDivisionError`.  There is no
divisibility check anywhere. -/
def get_note_info (vfile : VirtualFile) (num_channels : Nat)
    (samples : List (Option Sample)) :
    Except String (List (List (Option (List NoteInfo))) × VirtualFile) :=
  let data_size := vfile.size - SEQ_INFO_BYTES - HEADER_BYTES
  let r := vfile.read data_size
  if 6 * num_channels * 64 = 0 then .error "ZeroDivisionError: division by zero"
  else
    match noteLoop samples num_channels (data_size / (6 * num_channels * 64))
        ⟨r.1, 0⟩ with
    | .error e => .error e
    | .ok (seqs, _) => .ok (seqs, r.2)

/-- The outer loop produces exactly one decoded sequence per iteration. -/
lemma noteLoop_length (samples : List (Option Sample)) (num_channels : Nat)
    (k : Nat) :
    ∀ nf seqs nfF, noteLoop samples num_channels k nf = .ok (seqs, nfF) →
      seqs.length = k := by
  induction k with
  | zero =>
    intro nf seqs nfF h
    cases h
    rfl
  | succ k ih =>
    intro nf seqs nfF h
    unfold noteLoop at h
    cases hstep : stepLoop samples num_channels 64 nf
        (List.replicate num_channels none) with
    | error e => simp [hstep] at h
    | ok p =>
      obtain ⟨si, nf'⟩ := p
      simp only [hstep] at h
      cases hrec : noteLoop samples num_channels k nf' with
      | error e => simp [hrec] at h
      | ok q =>
        obtain ⟨rest, nfF'⟩ := q
        simp only [hrec] at h
        injection h with h'
        injection h' with h1 h2
        rw [← h1]
        simp [ih _ _ _ hrec]

end MusExtract

namespace MusExtract

/-- **C2 counterexample.** The claim says decoding succeeds only when the byte
count after the fixed regions is divisible by the section size and a
nonzero remainder yields a StructuralMismatch error.  With one channel the
section size is `384`; on a 1924-byte buffer, 16 bytes remain after the
fixed regions (`16 % 384 = 16 ≠ 0`), yet `get_note_info` succeeds and
silently truncates to `floor(16/384) = 0` sequences instead of raising a
structural-mismatch error. -/
theorem claim_C2_counterexample :
    (1924 - SEQ_INFO_BYTES - HEADER_BYTES) % (6 * 1 * 64) ≠ 0
    ∧ get_note_info ⟨List.replicate 1924 0, 0⟩ 1 (List.replicate 31 none)
      = .ok ([], ⟨List.replicate 1924 0, 16⟩) := by
  constructor
  · decide
  · have hds : (⟨List.replicate 1924 0, 0⟩ : VirtualFile).size
        - SEQ_INFO_BYTES - HEADER_BYTES = 16 := by
      have h : (⟨List.replicate 1924 0, 0⟩ : VirtualFile).size = 1924 :=
        List.length_replicate 1924 0
      rw [h, SEQ_INFO_BYTES, HEADER_BYTES]
    simp only [get_note_info, hds]
    rw [if_neg (by decide : ¬ (6 * 1 * 64 = 0)),
      (by decide : (16 : Nat) / (6 * 1 * 64) = 0)]
    simp only [noteLoop]
    rfl

/-- **C2 (amended).** The note-matrix decoder performs no divisibility check:
whenever it succeeds it produces exactly
`floor(remainingBytes / (6*channelCount*64))` sequences, silently ignoring
any remainder; the only structural failure tied to the section size is a
zero channel count (Python `ZeroDivisionError`). -/
theorem claim_C2_amended :
    (∀ vf (num_channels : Nat) samples seqs vf',
      get_note_info vf num_channels samples = .ok (seqs, vf') →
      seqs.length =
        (vf.size - SEQ_INFO_BYTES - HEADER_BYTES) / (6 * num_channels * 64))
    ∧ (∀ vf samples, get_note_info vf 0 samples =
        .error "ZeroDivisionError: division by zero") := by
  constructor
  · intro vf num_channels samples seqs vf' h
    simp only [get_note_info] at h
    split at h
    · exact Except.noConfusion h
    · split at h
      · exact Except.noConfusion h
      · next seqs0 nfF heq =>
        injection h with h'
        injection h' with h1 h2
        rw [← h1]
        exact noteLoop_length samples num_channels _ _ _ _ heq
  · intro vf samples
    simp [get_note_info]

/-- Witness for the amended C2 at a concrete input: 1924-byte file, one
channel, 16 remaining bytes, `16 / 384 = 0` sequences; and channel count
zero aborts with the division error. -/
theorem claim_C2_amended_witness :
    ([] : List (List (Option (List NoteInfo)))).length
      = ((⟨List.replicate 1924 0, 0⟩ : VirtualFile).size
          - SEQ_INFO_BYTES - HEADER_BYTES) / (6 * 1 * 64)
    ∧ get_note_info ⟨List.replicate 1924 0, 0⟩ 0 (List.replicate 31 none)
      = .error "ZeroDivisionError: division by zero" := by
  constructor
  · have hds : (⟨List.replicate 1924 0, 0⟩ : VirtualFile).size
        - SEQ_INFO_BYTES - HEADER_BYTES = 16 := by
      have h : (⟨List.replicate 1924 0, 0⟩ : VirtualFile).size = 1924 :=
        List.length_replicate 1924 0
      rw [h, SEQ_INFO_BYTES, HEADER_BYTES]
    have hok : get_note_info ⟨List.replicate 1924 0, 0⟩ 1 (List.replicate 31 none)
        = .ok ([], ⟨List.replicate 1924 0, 16⟩) := by
      simp only [get_note_info, hds]
      rw [if_neg (by decide : ¬ (6 * 1 * 64 = 0)),
        (by decide : (16 : Nat) / (6 * 1 * 64) = 0)]
      simp only [noteLoop]
      rfl
    exact claim_C2_amended.1 _ 1 _ _ _ hok
  · exact claim_C2_amended.2 ⟨List.replicate 1924 0, 0⟩
      (List.replicate 31 none)

end MusExtract

namespace MusExtract

/-- The decoding pipeline of `process_mus_file` up to and including the note
matrix: sample table from the header region, channel count and play order
from the sequence-order region, then the decoded sequences. -/
def decodeSeqs (data : List Nat) :
    Except String (List (List (Option (List NoteInfo)))) :=
  match get_sample_data ⟨data, 0⟩ with
  | .error e => .error e
  | .ok (samples, vf1) =>
    match get_seq_data vf1 with
    | .error e => .error e
    | .ok (num_channels, _order, _nseqs, vf2) =>
      match get_note_info vf2 num_channels samples with
      | .error e => .error e
      | .ok (seqs, _) => .ok seqs

/-- `process_mus_file` from the source: returns
`(len_tracks, num_samples, order, num_channels, nseqs)`.  (`len_tracks` is
`size - 0x774` on a Python int; the `Nat` subtraction matches for all files
covering the fixed regions.)  The declared sequence count `nseqs` is only
passed through to this summary tuple. -/
def process_mus_file (data : List Nat) :
    Except String (Nat × Nat × List Nat × Nat × Nat) :=
  match get_sample_data ⟨data, 0⟩ with
  | .error e => .error e
  | .ok (samples, vf1) =>
    match get_seq_data vf1 with
    | .error e => .error e
    | .ok (num_channels, order, nseqs, vf2) =>
      match get_note_info vf2 num_channels samples with
      | .error e => .error e
      | .ok (_seqs, _) =>
        .ok (data.length - 0x774,
          (samples.filter (fun s => s.isSome)).length,
          order, num_channels, nseqs)

/-- Two lists agreeing pointwise below `n` have equal `n`-prefixes. -/
lemma take_eq_of_agree :
    ∀ (n : Nat) (a b : List Nat),
      (∀ i, i < n → a.get? i = b.get? i) → a.take n = b.take n := by
  intro n
  induction n with
  | zero => intro a b _; rfl
  | succ n ih =>
    intro a b h
    cases a with
    | nil =>
      cases b with
      | nil => rfl
      | cons y ys =>
        have h0 := h 0 (Nat.succ_pos n)
        exact Option.noConfusion h0
    | cons x xs =>
      cases b with
      | nil =>
        have h0 := h 0 (Nat.succ_pos n)
        exact Option.noConfusion h0
      | cons y ys =>
        have h0 := h 0 (Nat.succ_pos n)
        injection h0 with hxy
        have hrest : xs.take n = ys.take n := by
          apply ih
          intro i hi
          have := h (i + 1) (Nat.succ_lt_succ hi)
          simpa using this
        simp [hxy, hrest]

/-- A successful sample-table read on a cursor depends only on the header
prefix; the outer cursor always ends at `pos + HEADER_BYTES`. -/
lemma get_sample_data_congr (b1 b2 : List Nat)
    (h : b1.take HEADER_BYTES = b2.take HEADER_BYTES)
    (samples : List (Option Sample)) (vf1' : VirtualFile)
    (h1 : get_sample_data ⟨b1, 0⟩ = .ok (samples, vf1')) :
    get_sample_data ⟨b2, 0⟩ = .ok (samples, ⟨b2, 0 + HEADER_BYTES⟩)
    ∧ vf1' = ⟨b1, 0 + HEADER_BYTES⟩ := by
  simp only [get_sample_data, VirtualFile.read, List.drop_zero] at h1 ⊢
  rw [h] at h1
  cases hl : sampleLoop ⟨b2.take HEADER_BYTES, 0 + 0x14⟩ 0 31 with
  | error e =>
    simp only [hl] at h1
    exact Except.noConfusion h1
  | ok p =>
    simp only [hl] at h1 ⊢
    injection h1 with h1'
    injection h1' with ha hb
    exact ⟨by rw [ha], by rw [← hb]⟩

/-- A successful sentinel read beginning with `found_zero = false` always
starts with the first decoded word. -/
lemma readSeqList_head (fuel : Nat) (vf : VirtualFile) (l : List Nat)
    (vf' : VirtualFile) (h : readSeqList vf false fuel = .ok (l, vf')) :
    ∃ v vf1 rest, read4LE vf = .ok (v, vf1) ∧ l = v :: rest := by
  cases fuel with
  | zero => exact Except.noConfusion h
  | succ fuel =>
    unfold readSeqList at h
    cases hr : read4LE vf with
    | error e =>
      simp only [hr] at h
      exact Except.noConfusion h
    | ok w =>
      obtain ⟨v, vf1⟩ := w
      simp only [hr] at h
      by_cases hv : v = 0
      · subst hv
        simp only [if_pos rfl, Bool.false_eq_true, if_false] at h
        cases hrec : readSeqList vf1 true fuel with
        | error e =>
          simp only [hrec] at h
          exact Except.noConfusion h
        | ok q =>
          obtain ⟨rest, vfxx⟩ := q
          simp only [hrec] at h
          injection h with h'
          injection h' with hl2 hv2
          exact ⟨0, vf1, rest, rfl, by rw [← hl2]⟩
      · rw [if_neg hv] at h
        cases hrec : readSeqList vf1 false fuel with
        | error e =>
          simp only [hrec] at h
          exact Except.noConfusion h
        | ok q =>
          obtain ⟨rest, vfxx⟩ := q
          simp only [hrec] at h
          injection h with h'
          injection h' with hl2 hv2
          exact ⟨v, vf1, rest, rfl, by rw [← hl2]⟩

/-- The value read by `read4LE` is the little-endian value of the next four
bytes. -/
lemma read4LE_val (vf : VirtualFile) (v : Nat) (vf1 : VirtualFile)
    (h : read4LE vf = .ok (v, vf1)) :
    v = leVal ((vf.data.drop vf.pos).take 4) := by
  simp only [read4LE, VirtualFile.read] at h
  split at h
  · injection h with h'
    injection h' with h1 h2
    rw [← h1]
  · exact Except.noConfusion h

/-- A successful sequence-order read determines the final cursor position and
derives the channel count from the first four bytes of the region. -/
lemma get_seq_data_parts (vf : VirtualFile) (c : Nat) (ord : List Nat)
    (n : Nat) (vf' : VirtualFile)
    (h : get_seq_data vf = .ok (c, ord, n, vf')) :
    vf' = ⟨vf.data, vf.pos + SEQ_INFO_BYTES⟩
    ∧ c = leVal ((((vf.data.drop vf.pos).take SEQ_INFO_BYTES).drop 0).take 4) := by
  simp only [get_seq_data, VirtualFile.read] at h
  cases hl : readSeqList ⟨(vf.data.drop vf.pos).take SEQ_INFO_BYTES, 0⟩ false
      (SEQ_INFO_BYTES / 4 + 1) with
  | error e =>
    simp only [hl] at h
    exact Except.noConfusion h
  | ok p =>
    obtain ⟨seqs, vfx⟩ := p
    simp only [hl] at h
    obtain ⟨v, vf1, rest, hr, hlist⟩ :=
      readSeqList_head _ _ _ _ hl
    cases seqs with
    | nil => exact Except.noConfusion h
    | cons c0 t =>
      cases t with
      | nil => exact Except.noConfusion h
      | cons n0 rest0 =>
        injection h with h'
        injection h' with hc h'
        injection h' with hord h'
        injection h' with hn hvf
        injection hlist with hc0 htail
        constructor
        · exact hvf.symm
        · rw [← hc, hc0]
          exact read4LE_val _ _ _ hr

end MusExtract


namespace MusExtract

/-- Inversion of a successful `get_note_info` call: the section size is
nonzero and the inner loop succeeded on the chunk after the fixed
regions. -/
lemma get_note_info_ok_elim (b : List Nat) (p c : Nat)
    (samples : List (Option Sample))
    (seqs : List (List (Option (List NoteInfo)))) (w : VirtualFile)
    (h : get_note_info ⟨b, p⟩ c samples = .ok (seqs, w)) :
    6 * c * 64 ≠ 0
    ∧ ∃ nf, noteLoop samples c
        ((b.length - SEQ_INFO_BYTES - HEADER_BYTES) / (6 * c * 64))
        ⟨(b.drop p).take (b.length - SEQ_INFO_BYTES - HEADER_BYTES), 0⟩
      = .ok (seqs, nf) := by
  simp only [get_note_info] at h
  split at h
  · exact Except.noConfusion h
  · next hz =>
    split at h
    · exact Except.noConfusion h
    · next seqs0 nf heq =>
      injection h with h'
      injection h' with h1 h2
      refine ⟨hz, nf, ?_⟩
      rw [← h1]
      have e1 : ({ data := b, pos := p } : VirtualFile).size = b.length := rfl
      have e2 : ∀ n : Nat, (({ data := b, pos := p } : VirtualFile).read n).1
          = (b.drop p).take n := fun n => rfl
      rw [e1, e2] at heq
      exact heq

/-- Inversion of a failing `get_note_info` call. -/
lemma get_note_info_error_elim (b : List Nat) (p c : Nat)
    (samples : List (Option Sample)) (e : String)
    (h : get_note_info ⟨b, p⟩ c samples = .error e) :
    6 * c * 64 = 0
    ∨ noteLoop samples c
        ((b.length - SEQ_INFO_BYTES - HEADER_BYTES) / (6 * c * 64))
        ⟨(b.drop p).take (b.length - SEQ_INFO_BYTES - HEADER_BYTES), 0⟩
      = .error e := by
  simp only [get_note_info] at h
  split at h
  · next hz => exact Or.inl hz
  · next hz =>
    split at h
    · next e0 heq =>
      injection h with h'
      right
      rw [← h']
      have e1 : ({ data := b, pos := p } : VirtualFile).size = b.length := rfl
      have e2 : ∀ n : Nat, (({ data := b, pos := p } : VirtualFile).read n).1
          = (b.drop p).take n := fun n => rfl
      rw [e1, e2] at heq
      exact heq
    · exact Except.noConfusion h

/-- **C10.** The decoded note matrix is independent of the declared sequence
count: for two equal-length buffers that agree everywhere except on bytes
`0x56C..0x56F` (the second 32-bit word of the sequence-order region, the
declared-sequence-count word whenever decoding succeeds), any two
successful pipeline decodes produce identical sequence lists — the declared
count is only passed through to the summary and never influences
note-matrix decoding. -/
theorem claim_C10_declared_count_independence :
    ∀ (b1 b2 : List Nat) s1 s2,
      b1.length = b2.length →
      (∀ i, i < 0x56C → b1.get? i = b2.get? i) →
      (∀ i, 0x570 ≤ i → b1.get? i = b2.get? i) →
      decodeSeqs b1 = .ok s1 → decodeSeqs b2 = .ok s2 → s1 = s2 := by
  intro b1 b2 s1 s2 hlen hlo hhi h1 h2
  have hhdr : b1.take HEADER_BYTES = b2.take HEADER_BYTES :=
    take_eq_of_agree _ _ _ (fun i hi =>
      hlo i (lt_of_lt_of_le hi (by decide : HEADER_BYTES ≤ 0x56C)))
  unfold decodeSeqs at h1 h2
  cases hs1 : get_sample_data ⟨b1, 0⟩ with
  | error e =>
    simp only [hs1] at h1
    exact Except.noConfusion h1
  | ok sp =>
    obtain ⟨samples, vf1'⟩ := sp
    simp only [hs1] at h1
    obtain ⟨hs2, hvf1⟩ := get_sample_data_congr b1 b2 hhdr samples vf1' hs1
    subst hvf1
    simp only [hs2] at h2
    cases hq1 : get_seq_data ⟨b1, 0 + HEADER_BYTES⟩ with
    | error e =>
      simp only [hq1] at h1
      exact Except.noConfusion h1
    | ok q1 =>
      obtain ⟨c1, ord1, n1, vf2_1⟩ := q1
      simp only [hq1] at h1
      cases hq2 : get_seq_data ⟨b2, 0 + HEADER_BYTES⟩ with
      | error e =>
        simp only [hq2] at h2
        exact Except.noConfusion h2
      | ok q2 =>
        obtain ⟨c2, ord2, n2, vf2_2⟩ := q2
        simp only [hq2] at h2
        obtain ⟨hvf2_1, hc1⟩ := get_seq_data_parts _ _ _ _ _ hq1
        obtain ⟨hvf2_2, hc2⟩ := get_seq_data_parts _ _ _ _ _ hq2
        subst hvf2_1
        subst hvf2_2
        have hfirst : ((b1.drop (0 + HEADER_BYTES)).take 4)
            = ((b2.drop (0 + HEADER_BYTES)).take 4) := by
          apply take_eq_of_agree
          intro i hi
          rw [List.get?_drop, List.get?_drop]
          apply hlo
          have hh : HEADER_BYTES = 1384 := rfl
          omega
        have hc12 : c1 = c2 := by
          rw [hc1, hc2, List.drop_zero, List.drop_zero, List.take_take,
            List.take_take, (by decide : min 4 SEQ_INFO_BYTES = 4), hfirst]
        subst hc12
        have hchunk : (b1.drop (0 + HEADER_BYTES + SEQ_INFO_BYTES)).take
            (b2.length - SEQ_INFO_BYTES - HEADER_BYTES)
            = (b2.drop (0 + HEADER_BYTES + SEQ_INFO_BYTES)).take
              (b2.length - SEQ_INFO_BYTES - HEADER_BYTES) := by
          apply take_eq_of_agree
          intro i hi
          rw [List.get?_drop, List.get?_drop]
          apply hhi
          have hh : HEADER_BYTES = 1384 := rfl
          have hsq : SEQ_INFO_BYTES = 524 := rfl
          omega
        cases hg1 : get_note_info ⟨b1, 0 + HEADER_BYTES + SEQ_INFO_BYTES⟩
            c1 samples with
        | error e =>
          simp only [hg1] at h1
          exact Except.noConfusion h1
        | ok g1 =>
          obtain ⟨seqs1, w1⟩ := g1
          simp only [hg1] at h1
          obtain ⟨hz, nf, hl1⟩ := get_note_info_ok_elim _ _ _ _ _ _ hg1
          rw [hlen, hchunk] at hl1
          cases hg2 : get_note_info ⟨b2, 0 + HEADER_BYTES + SEQ_INFO_BYTES⟩
              c1 samples with
          | error e =>
            rcases get_note_info_error_elim _ _ _ _ _ hg2 with hz0 | hlerr
            · exact absurd hz0 hz
            · rw [hl1] at hlerr
              exact Except.noConfusion hlerr
          | ok g2 =>
            obtain ⟨seqs2, w2⟩ := g2
            simp only [hg2] at h2
            obtain ⟨hz2, nf2, hl2⟩ := get_note_info_ok_elim _ _ _ _ _ _ hg2
            have hcomb : (Except.ok (seqs1, nf) :
                Except String (List (List (Option (List NoteInfo))) × VirtualFile))
                = Except.ok (seqs2, nf2) := hl1.symm.trans hl2
            have hseq : seqs1 = seqs2 :=
              congrArg Prod.fst (Except.ok.inj hcomb)
            have h1' : seqs1 = s1 := Except.ok.inj h1
            have h2' : seqs2 = s2 := Except.ok.inj h2
            rw [← h1', ← h2', hseq]

end MusExtract

namespace MusExtract

/-- C10 fixture: everything before the declared-sequence-count word — an
all-zero header followed by the channel-count word `1`. -/
def c10X : List Nat := List.replicate HEADER_BYTES 0 ++ [1, 0, 0, 0]

/-- C10 fixture: everything after the declared-sequence-count word — zero
padding closing the sequence-order region, then one 384-byte all-zero
sequence (1 channel × 64 steps × 6 bytes). -/
def c10Y : List Nat :=
  List.replicate (SEQ_INFO_BYTES - 8) 0 ++ List.replicate 384 0

/-- C10 fixture buffer with declared sequence count 7. -/
def c10buf1 : List Nat := c10X ++ [7, 0, 0, 0] ++ c10Y

/-- C10 fixture buffer with declared sequence count 9. -/
def c10buf2 : List Nat := c10X ++ [9, 0, 0, 0] ++ c10Y

/-- The decoded all-zero 6-byte record. -/
def zeroNote : NoteInfo :=
  { start_volume := 0, sample_used := none, volume := 0, sample_num := none,
    second_byte := [0, 0], note_played := "C0", retrigger := false,
    note_played_raw := 12, note_played_midi := 24, third_byte := [0, 0] }

/-- The note matrix decoded from either C10 fixture buffer. -/
def c10value : List (List (Option (List NoteInfo))) :=
  [[some (List.replicate 64 zeroNote)]]

/-- Indexing skips an equal-length replaced middle segment. -/
lemma get?_outside_middle (X w1 w2 Y : List Nat) (hw : w1.length = w2.length)
    (i : Nat) (hi : i < X.length ∨ X.length + w1.length ≤ i) :
    (X ++ w1 ++ Y).get? i = (X ++ w2 ++ Y).get? i := by
  rcases hi with hi | hi
  · rw [List.append_assoc, List.append_assoc, List.get?_append hi,
      List.get?_append hi]
  · rw [List.append_assoc, List.append_assoc,
      List.get?_append_right (show X.length ≤ i by omega),
      List.get?_append_right (show X.length ≤ i by omega),
      List.get?_append_right (show w1.length ≤ i - X.length by omega),
      List.get?_append_right (show w2.length ≤ i - X.length by omega), hw]

end MusExtract

namespace MusExtract

/-- Reassembly: a successful inner loop yields a successful
`get_note_info` call with the same sequence list. -/
lemma get_note_info_ok_intro (b : List Nat) (p c : Nat)
    (samples : List (Option Sample))
    (seqs : List (List (Option (List NoteInfo)))) (nf : VirtualFile)
    (hz : ¬ 6 * c * 64 = 0)
    (hl : noteLoop samples c
        ((b.length - SEQ_INFO_BYTES - HEADER_BYTES) / (6 * c * 64))
        ⟨(b.drop p).take (b.length - SEQ_INFO_BYTES - HEADER_BYTES), 0⟩
      = .ok (seqs, nf)) :
    ∃ w, get_note_info ⟨b, p⟩ c samples = .ok (seqs, w) := by
  cases hcase : get_note_info ⟨b, p⟩ c samples with
  | error e =>
    rcases get_note_info_error_elim _ _ _ _ _ hcase with h0 | herr
    · exact absurd h0 hz
    · exact Except.noConfusion (hl.symm.trans herr)
  | ok r =>
    obtain ⟨seqs0, w⟩ := r
    obtain ⟨hz0, nf0, hl0⟩ := get_note_info_ok_elim _ _ _ _ _ _ hcase
    have hco : (Except.ok (seqs, nf) :
        Except String (List (List (Option (List NoteInfo))) × VirtualFile))
        = Except.ok (seqs0, nf0) := hl.symm.trans hl0
    have hseq : seqs = seqs0 := congrArg Prod.fst (Except.ok.inj hco)
    exact ⟨w, by rw [hseq]⟩

set_option maxRecDepth 8000 in
/-- Witness for C10: the two fixture buffers differ only in the
declared-sequence-count word (7 vs 9) and decode to the same note
matrix. -/
theorem claim_C10_witness :
    decodeSeqs c10buf1 = .ok c10value ∧ decodeSeqs c10buf2 = .ok c10value := by
  have hlen1 : c10buf1.length = 2292 := by
    simp only [c10buf1, c10X, c10Y, List.length_append, List.length_replicate,
      List.length_cons, List.length_nil, HEADER_BYTES, SEQ_INFO_BYTES]
  have hlen2 : c10buf2.length = 2292 := by
    simp only [c10buf2, c10X, c10Y, List.length_append, List.length_replicate,
      List.length_cons, List.length_nil, HEADER_BYTES, SEQ_INFO_BYTES]
  have hs1 : get_sample_data ⟨c10buf1, 0⟩
      = .ok (List.replicate 31 none, ⟨c10buf1, 0 + HEADER_BYTES⟩) := rfl
  have hs2 : get_sample_data ⟨c10buf2, 0⟩
      = .ok (List.replicate 31 none, ⟨c10buf2, 0 + HEADER_BYTES⟩) := rfl
  have hq1 : get_seq_data ⟨c10buf1, 0 + HEADER_BYTES⟩
      = .ok (1, [0], 7, ⟨c10buf1, 0 + HEADER_BYTES + SEQ_INFO_BYTES⟩) := rfl
  have hq2 : get_seq_data ⟨c10buf2, 0 + HEADER_BYTES⟩
      = .ok (1, [0], 9, ⟨c10buf2, 0 + HEADER_BYTES + SEQ_INFO_BYTES⟩) := rfl
  have hl1 : noteLoop (List.replicate 31 none) 1
      (((2292 : Nat) - SEQ_INFO_BYTES - HEADER_BYTES) / (6 * 1 * 64))
      ⟨(c10buf1.drop (0 + HEADER_BYTES + SEQ_INFO_BYTES)).take
        ((2292 : Nat) - SEQ_INFO_BYTES - HEADER_BYTES), 0⟩
      = .ok (c10value,
        ⟨(c10buf1.drop (0 + HEADER_BYTES + SEQ_INFO_BYTES)).take
          ((2292 : Nat) - SEQ_INFO_BYTES - HEADER_BYTES), 384⟩) := rfl
  have hl2 : noteLoop (List.replicate 31 none) 1
      (((2292 : Nat) - SEQ_INFO_BYTES - HEADER_BYTES) / (6 * 1 * 64))
      ⟨(c10buf2.drop (0 + HEADER_BYTES + SEQ_INFO_BYTES)).take
        ((2292 : Nat) - SEQ_INFO_BYTES - HEADER_BYTES), 0⟩
      = .ok (c10value,
        ⟨(c10buf2.drop (0 + HEADER_BYTES + SEQ_INFO_BYTES)).take
          ((2292 : Nat) - SEQ_INFO_BYTES - HEADER_BYTES), 384⟩) := rfl
  obtain ⟨w1, hn1⟩ := get_note_info_ok_intro c10buf1
    (0 + HEADER_BYTES + SEQ_INFO_BYTES) 1 (List.replicate 31 none) c10value _
    (by decide) (by rw [hlen1]; exact hl1)
  obtain ⟨w2, hn2⟩ := get_note_info_ok_intro c10buf2
    (0 + HEADER_BYTES + SEQ_INFO_BYTES) 1 (List.replicate 31 none) c10value _
    (by decide) (by rw [hlen2]; exact hl2)
  have hd1 : decodeSeqs c10buf1 = .ok c10value := by
    unfold decodeSeqs
    simp only [hs1, hq1, hn1]
  have hd2 : decodeSeqs c10buf2 = .ok c10value := by
    unfold decodeSeqs
    simp only [hs2, hq2, hn2]
  have hXlen : c10X.length = 0x56C := by
    simp only [c10X, List.length_append, List.length_replicate,
      List.length_cons, List.length_nil, HEADER_BYTES]
  have hind : c10value = c10value :=
    claim_C10_declared_count_independence c10buf1 c10buf2 c10value c10value
      (hlen1.trans hlen2.symm)
      (fun i hi => get?_outside_middle c10X [7, 0, 0, 0] [9, 0, 0, 0] c10Y rfl
        i (Or.inl (by rw [hXlen]; exact hi)))
      (fun i hi => get?_outside_middle c10X [7, 0, 0, 0] [9, 0, 0, 0] c10Y rfl
        i (Or.inr (by rw [hXlen]; simpa using hi)))
      hd1 hd2
  exact ⟨hd1, hind ▸ hd2⟩

end MusExtract
